import Mathlib

/-!
# Verification of the LoyaltyAnalytics agent-loop specification

Shallow embedding of the core of `backend/langgraph_agent.py` (the LangGraph
ReAct agent loop), together with the pieces of
`backend/langraph_multi_mcp_tools.py` and `backend/mcp_multi_client.py` that
the claims reference.  The language model and the external MCP tool servers
are external collaborators: they are modelled as total oracles (a call-indexed
stream of model outcomes, and a per-call tool-result function).  All control
flow, state bookkeeping, and string manipulation of the agent itself is
translated directly from the Python source.
-/

namespace RopsAnalytics

/-! ## String helpers

`strContains s pat` models Python's `pat in s` (contiguous substring test on
code points).  It is used by the agent for the error-marker test
(`langgraph_agent.py` line 246) and the code-keyword test (line 302).
-/

/-- Python `pat in s`: `pat` occurs as a contiguous substring of `s`. -/
def strContains (s pat : String) : Bool :=
  decide (pat.toList <:+: s.toList)

/-- Python `str.lower()` restricted to its ASCII action (the keyword list
and the markers the agent compares against are all ASCII). -/
def pyLowerChar (c : Char) : Char :=
  if c.isUpper then Char.ofNat (c.toNat + 32) else c

/-- Model of `s.lower()` as the agent uses it. -/
def pyLower (s : String) : String := ⟨s.data.map pyLowerChar⟩

/-! ## C10: `ensure_json_serializable` (`langgraph_agent.py` lines 29-40)

A model of Python runtime values as the function observes them: `Decimal`
instances, dicts, lists, objects carrying an `isoformat` method (datetimes),
and all other leaves.  `float(Decimal(r))` is modelled as carrying the same
payload `r` over to the float constructor (the numeric conversion itself is
performed by the Python runtime, outside the function's logic); `isoformat()`
is modelled as the ISO string the object carries.  The constructors are
disjoint exactly as the `isinstance`/`hasattr` chain distinguishes them:
a `Decimal` has no `isoformat`, floats and strings have no `isoformat`,
so the source's check order is immaterial in the model.
-/

inductive PyVal where
  | pnone : PyVal
  | pbool (b : Bool) : PyVal
  | pint (n : Int) : PyVal
  | pstr (s : String) : PyVal
  | pfloat (r : String) : PyVal
  | pdecimal (r : String) : PyVal
  | pdatetime (iso : String) : PyVal
  | plist (items : List PyVal) : PyVal
  | pdict (entries : List (String × PyVal)) : PyVal
deriving Repr

mutual

/-- Function `ensure_json_serializable` translated from `langgraph_agent.py:29-40`:
Decimal becomes float, dicts and lists recurse (keys untouched), objects with
`isoformat` become their ISO string, everything else is returned unchanged. -/
def ensure_json_serializable : PyVal → PyVal
  | .pdecimal r => .pfloat r
  | .pdict es => .pdict (ensureEntries es)
  | .plist xs => .plist (ensureList xs)
  | .pdatetime iso => .pstr iso
  | .pnone => .pnone
  | .pbool b => .pbool b
  | .pint n => .pint n
  | .pstr s => .pstr s
  | .pfloat r => .pfloat r

/-- Recursion of `ensure_json_serializable` over list items. -/
def ensureList : List PyVal → List PyVal
  | [] => []
  | x :: xs => ensure_json_serializable x :: ensureList xs

/-- Recursion of `ensure_json_serializable` over dict entries (values only). -/
def ensureEntries : List (String × PyVal) → List (String × PyVal)
  | [] => []
  | e :: es => (e.1, ensure_json_serializable e.2) :: ensureEntries es

end

/-! ## Data model of the agent loop (`langgraph_agent.py`)

LangChain messages are modelled as a tagged union; a tool-call request is
`{name, args, id}` where the argument mapping is kept as an opaque string
(its contents are only ever forwarded to the external tool).  The per-turn
accumulator entries built at `langgraph_agent.py:242-247` are
`{iteration, content, timestamp, success}`; `datetime.now().isoformat()` is
wall-clock data and is modelled as the fixed string `""`.
-/

structure ToolCall where
  name : String
  args : String
  id : String
deriving Repr, DecidableEq

inductive Message where
  | human (content : String) : Message
  | system (content : String) : Message
  | ai (content : String) (toolCalls : List ToolCall) : Message
  | tool (content : String) (toolCallId : String) : Message
deriving Repr, DecidableEq

/-- The `.content` attribute shared by all LangChain message classes. -/
def Message.content : Message → String
  | .human c => c
  | .system c => c
  | .ai c _ => c
  | .tool c _ => c

structure ToolResultEntry where
  iteration : Nat
  content : String
  timestamp : String
  success : Bool
deriving Repr, DecidableEq

/-- State `AgentState` (TypedDict, `langgraph_agent.py:43-57`).  The default values
are the ones `state.get(...)` supplies for keys that `process_query` does not
put into `input_data` (lines 756-762): `reasoning` defaults to `[]`,
`current_step` to `""`, `max_iterations` to `3`, the optional slots to
`None`. -/
structure AgentState where
  messages : List Message
  user_query : String
  database_schema : Option String := none
  sql_query : Option String := none
  query_results : Option (List (List (String × String))) := none
  visualization_config : Option String := none
  reasoning : List String := []
  current_step : String := ""
  is_conversational : Bool := false
  iteration_count : Nat := 0
  max_iterations : Nat := 3
  tool_results : List ToolResultEntry := []
  goal_achieved : Bool := false
deriving Repr, DecidableEq

/-- Outcome of one language-model invocation: a normal `AIMessage`
(content plus zero or more tool-call requests), or a raised exception with
message `msg`. -/
inductive LLMOutcome where
  | ok (content : String) (toolCalls : List ToolCall) : LLMOutcome
  | exc (msg : String) : LLMOutcome

/-- External collaborators of one graph run: the model is a call-indexed
stream of outcomes (`llm n` is the result of the `n`-th `ainvoke` of the
run; the prompt strings sent to it — `_get_system_prompt`,
`_build_continuation_prompt`, the conversational preamble — only flow into
this external call and never into the agent's own control flow, so they are
absorbed into the oracle).  `toolExec` gives, for each dispatched tool-call
request, the content of the `ToolMessage` that `ToolNode` appends for it
(`MCPTool._arun` never raises, see claim C5).  `hasTools` is the truthiness
of `self.tools` at the `bind_tools` call sites. -/
structure Config where
  llm : Nat → LLMOutcome
  toolExec : ToolCall → String
  hasTools : Bool

/-! ## `_reasoning_node` (`langgraph_agent.py:270-476`) -/

/-- The error-marker test of `langgraph_agent.py:246`: a tool result is
recorded as failed exactly when its content contains both the substring
`"Error:"` and the substring `"TypeError"`. -/
def containsErrorMarker (c : String) : Bool :=
  strContains c "Error:" && strContains c "TypeError"

/-- List `code_related_keywords` (`langgraph_agent.py:301`; the same literal list
is repeated inline at line 348). -/
def code_related_keywords : List String :=
  ["code example", "code snippet", "python code", "javascript code",
   "show me code", "demonstrate code"]

/-- Check `any(keyword.lower() in user_query.lower() for keyword in ...)`. -/
def hasCodeKeywords (q : String) : Bool :=
  code_related_keywords.any (fun k => strContains (pyLower q) (pyLower k))

/-- The instruction suffix appended to the stored query at
`langgraph_agent.py:296` and `:307` (identical text at both sites). -/
def codeExecSuffix : String :=
  " [IMPORTANT: Execute ALL code examples in the sandbox before providing them to the user. Use execute_python_code or execute_code tools.]"

/-- Count of trailing failed entries (`langgraph_agent.py:320-324`: walk
`reversed(tool_results)` counting while `success` is false, stop at the
first success).  Every accumulator entry is a dict, so the
`isinstance(result, dict)` test always passes. -/
def consecutiveFailures (rs : List ToolResultEntry) : Nat :=
  go rs.reverse
where
  go : List ToolResultEntry → Nat
    | [] => 0
    | r :: t => if r.success then 0 else go t + 1

/-- Total count of failed entries (`langgraph_agent.py:316-318`); computed by
the source only for logging. -/
def failedAttempts (rs : List ToolResultEntry) : Nat :=
  (rs.filter (fun r => !r.success)).length

/-- The non-conversational tail of `_reasoning_node`
(`langgraph_agent.py:384-476`, reached from line 384 onward): append the
branch-marker reasoning string, invoke the model (tools bound iff
`self.tools` is non-empty), then either record the response and decide the
next step from its tool calls, or — if the model call raised — record the
error message and mark the step as `"error"` (the `except` at lines
461-467). -/
def mainReasoningPath (cfg : Config) (ctr : Nat) (st : AgentState)
    (isContinuation : Bool) (iter : Nat) (userQuery : String) : AgentState :=
  let r1 := if isContinuation then
      st.reasoning ++
        ["Iteration " ++ toString iter ++
         ": Analyzing tool results and generating final response"]
    else
      st.reasoning ++ ["Starting analysis of query: " ++ userQuery]
  match cfg.llm ctr with
  | .exc m =>
      { st with
          reasoning := r1 ++ ["Reasoning error: " ++ m],
          messages := st.messages ++ [.ai ("I encountered an error: " ++ m) []],
          current_step := "error" }
  | .ok c tcs =>
      let calls := if cfg.hasTools then tcs else []
      let r2 := if c = "" then r1
        else r1 ++ [if isContinuation then
            "Iteration " ++ toString iter ++ " Analysis: " ++ c
          else
            "Initial Analysis: " ++ c]
      if calls.isEmpty then
        { st with
            reasoning := r2,
            messages := st.messages ++ [.ai c calls],
            current_step := "completed",
            goal_achieved := true }
      else
        { st with
            reasoning := r2,
            messages := st.messages ++ [.ai c calls],
            current_step := "tool_execution" }

/-- The two special-state rewrites at the top of `_reasoning_node`:
the `current_step == "code_execution_required"` handling (lines 290-298) and
the code-related-keyword handling (lines 300-309).  Both the keyword check
and the stored-query rewrites use the local (pre-rewrite) `user_query`. -/
def rnPreprocess (st1 : AgentState) (userQuery : String) : AgentState :=
  let st2 := if st1.current_step = "code_execution_required" then
      { st1 with
          reasoning := st1.reasoning ++
            ["Code examples detected without execution - must run code in sandbox first"],
          user_query := userQuery ++ codeExecSuffix,
          current_step := "processing" }
    else st1
  if hasCodeKeywords userQuery then
      { st2 with
          reasoning := st2.reasoning ++
            ["Code-related query detected - must execute code in sandbox before providing examples"],
          user_query := userQuery ++ codeExecSuffix,
          goal_achieved := false }
    else st2

/-- The iteration count after the continuation increment at
`langgraph_agent.py:280-287`: incremented exactly when the turn already has
tool results (`is_continuation = len(tool_results) > 0`). -/
def rnIter (st : AgentState) : Nat :=
  if st.tool_results.isEmpty then st.iteration_count
  else st.iteration_count + 1

/-- The state after the increment and the two special-state rewrites, as it
stands when `_reasoning_node` reaches the consecutive-failure guard. -/
def rnPre (st : AgentState) : AgentState :=
  rnPreprocess { st with iteration_count := rnIter st } st.user_query

/-- Node `_reasoning_node` (`langgraph_agent.py:270-476`).  Returns the updated
state and model-call counter, or `.error msg` when an exception escapes the
node (only the guard's model call at line 337, which sits in no `try`, can
do that; the conversational and main model calls sit inside `try` blocks).
The source's `self.llm is None` fallbacks are not modelled: `_create_graph`
returns without building a graph when no LLM is configured (lines 115-119),
so every run of the graph has an LLM. -/
def reasoning_node (cfg : Config) (ctr : Nat) (st0 : AgentState) :
    Except String (AgentState × Nat) :=
  -- consecutive-failure guard (lines 332-343)
  if consecutiveFailures (rnPre st0).tool_results ≥ 2 then
    match cfg.llm ctr with
    | .exc m => .error m
    | .ok c _ =>
        -- model invoked without bound tools: plain explanatory AIMessage
        .ok ({ rnPre st0 with
            goal_achieved := true,
            messages := (rnPre st0).messages ++ [.ai c []],
            reasoning := (rnPre st0).reasoning ++
              ["Stopped due to repeated tool failures"] }, ctr + 1)
  -- conversational shortcut (lines 345-382): first iteration only, and only
  -- when the code-keyword check did not fire
  else if (rnIter st0 == 0) && !hasCodeKeywords st0.user_query then
    match cfg.llm ctr with
    | .ok c tcs =>
        .ok ({ rnPre st0 with
            messages := (rnPre st0).messages ++
              [.ai c (if cfg.hasTools then tcs else [])],
            reasoning := (rnPre st0).reasoning ++
              ["Processing query with full conversation history."],
            current_step := "response_generation" }, ctr + 1)
    | .exc _ =>
        -- lines 380-382: the conversational `except` falls through to the
        -- default logic, which performs a fresh (second) model call
        .ok (mainReasoningPath cfg (ctr + 1) (rnPre st0)
          (!st0.tool_results.isEmpty) (rnIter st0) st0.user_query, ctr + 2)
  else
    .ok (mainReasoningPath cfg ctr (rnPre st0)
      (!st0.tool_results.isEmpty) (rnIter st0) st0.user_query, ctr + 1)

/-! ## `_tool_calling_node` (`langgraph_agent.py:220-268`) -/

/-- The tool calls of the most recent message, as `ToolNode` reads them
(empty when the last message is not an `AIMessage`). -/
def lastMessageCalls (msgs : List Message) : List ToolCall :=
  match msgs.getLast? with
  | some (.ai _ tcs) => tcs
  | _ => []

/-- Node `_tool_calling_node`: `ToolNode` dispatches every tool call of the most
recent assistant message, sequentially in the order the model produced them,
and yields one `ToolMessage` per call; those messages are merged (appended)
onto the turn's message list.  The node then appends to `tool_results` a
single accumulator entry built from the *last* of the new tool messages
(`messages[-1]` at line 236, where `messages` is `ToolNode`'s output), with
`success` derived from the error marker (line 246); `iteration_count` and
`goal_achieved` are preserved (lines 253-254).  The `except` path of the
node is unreachable under the total tool oracle (`MCPTool._arun` catches all
exceptions, claim C5). -/
def toolNodeMsgs (cfg : Config) (msgs : List Message) : List Message :=
  (lastMessageCalls msgs).map (fun tc => Message.tool (cfg.toolExec tc) tc.id)

/-- Node `_tool_calling_node` itself: append the dispatched `ToolMessage`s and
the single accumulator entry derived from the last one. -/
def tool_calling_node (cfg : Config) (st : AgentState) : AgentState :=
  match (toolNodeMsgs cfg st.messages).getLast? with
  | some lastMsg =>
      { st with
          messages := st.messages ++ toolNodeMsgs cfg st.messages,
          tool_results := st.tool_results ++
            [{ iteration := st.iteration_count,
               content := lastMsg.content,
               timestamp := "",
               success := !containsErrorMarker lastMsg.content }] }
  | none => { st with messages := st.messages ++ toolNodeMsgs cfg st.messages }

/-! ## Routing functions and the graph runner (`langgraph_agent.py:115-218`) -/

/-- Router `_should_use_tools` (lines 161-191). -/
def should_use_tools (st : AgentState) : String :=
  if st.goal_achieved then "end"
  else
    match st.messages.getLast? with
    | some (.ai _ (_ :: _)) => "tools"
    | _ => "end"

/-- Router `_should_continue_reasoning` (lines 193-218). -/
def should_continue_reasoning (st : AgentState) : String :=
  if st.iteration_count ≥ st.max_iterations then "end"
  else if st.goal_achieved then "end"
  else "continue"

/-- The nodes of the compiled graph; `done` is `END`. -/
inductive Node where
  | reasoning : Node
  | toolCalling : Node
  | done : Node
deriving Repr, DecidableEq

structure RunState where
  node : Node
  state : AgentState
  ctr : Nat
deriving Repr, DecidableEq

/-- A run position: still progressing (or finished, at `node = done`),
or aborted because an exception escaped a node. -/
inductive RunRes where
  | running (rs : RunState) : RunRes
  | crashed (msg : String) : RunRes
deriving Repr, DecidableEq

/-- One super-step of the compiled graph: execute the pending node, then
route with the conditional edge maps of `_create_graph` (lines 129-146).
`done` is absorbing. -/
def stepRun (cfg : Config) : RunRes → RunRes
  | .crashed m => .crashed m
  | .running rs =>
      match rs.node with
      | .done => .running rs
      | .reasoning =>
          match reasoning_node cfg rs.ctr rs.state with
          | .error m => .crashed m
          | .ok (st', c') =>
              let nxt := if should_use_tools st' = "tools" then Node.toolCalling
                else Node.done
              .running ⟨nxt, st', c'⟩
      | .toolCalling =>
          let st' := tool_calling_node cfg rs.state
          let nxt := if should_continue_reasoning st' = "continue" then
              Node.reasoning
            else Node.done
          .running ⟨nxt, st', rs.ctr⟩

/-- The initial turn state built by `process_query` (`input_data`, lines
756-762): the session history plus the new `HumanMessage`, iteration count
0, empty accumulator, goal not achieved; all other `AgentState` keys are
absent and read through their `state.get` defaults. -/
def initState (previous : List Message) (q : String) : AgentState :=
  { messages := previous ++ [.human q],
    user_query := q,
    iteration_count := 0,
    tool_results := [],
    goal_achieved := false }

/-- The run of one turn: position after `n` super-steps, starting at the
entry point `reasoning`. -/
def runAgent (cfg : Config) (init : AgentState) : Nat → RunRes
  | 0 => .running ⟨Node.reasoning, init, 0⟩
  | n + 1 => stepRun cfg (runAgent cfg init n)

/-! ## The C1 run invariant -/

/-- Invariant maintained across the run: the iteration count never exceeds
the cap; a pending reasoning step with a non-empty accumulator (which will
increment the counter) was only ever scheduled by
`_should_continue_reasoning`, i.e. strictly below the cap; and a pending
tool-dispatch step always has tool calls on the most recent message. -/
def AgentInv (rs : RunState) : Prop :=
  rs.state.iteration_count ≤ rs.state.max_iterations
  ∧ (rs.node = .reasoning → rs.state.tool_results ≠ [] →
      rs.state.iteration_count < rs.state.max_iterations)
  ∧ (rs.node = .toolCalling → lastMessageCalls rs.state.messages ≠ [])

def cfgC3 : Config := ⟨fun _ => .ok "Hello there!" [], fun _ => "", true⟩

/-- The state after the conversational-shortcut reasoning step of the C3
counterexample run. -/
def c3post : AgentState :=
  match reasoning_node cfgC3 0 (initState [] "hello") with
  | .ok (s, _) => s
  | .error _ => initState [] "hello"

def stC3w : AgentState :=
  { initState [] "show top merchants" with
      tool_results := [⟨0, "rows", "", true⟩] }

def cfgC3w : Config := ⟨fun _ => .ok "All done." [], fun _ => "rows", true⟩

/-- The state after the continuation reasoning step of the C3 witness. -/
def c3wPost : AgentState :=
  match reasoning_node cfgC3w 0 stC3w with
  | .ok (s, _) => s
  | .error _ => stC3w

def tcA : ToolCall := ⟨"execute_database_query", "", "call_a"⟩

def tcB : ToolCall := ⟨"create_chart_from_data", "", "call_b"⟩

def stC4 : AgentState :=
  { initState [] "chart please" with
      messages := (initState [] "chart please").messages ++
        [.ai "calling two tools" [tcA, tcB]] }

def cfgC4 : Config :=
  ⟨fun _ => .ok "" [], fun tc => "result for " ++ tc.id, true⟩

def stC4w : AgentState :=
  { initState [] "query please" with
      messages := (initState [] "query please").messages ++
        [.ai "one call" [tcA]] }

def c4wPost : AgentState := tool_calling_node cfgC4 stC4w

/-! ## C6: the success flag of recorded tool results -/

/-- The success flag the loop derives from a tool result's content
(`langgraph_agent.py:246`). -/
def derivedSuccess (content : String) : Bool := !containsErrorMarker content

def tcC6 : ToolCall := ⟨"execute_database_query", "", "call_c6"⟩

def stC6 : AgentState :=
  { initState [] "top merchants" with
      messages := (initState [] "top merchants").messages ++
        [.ai "running query" [tcC6]] }

def cfgC6 : Config :=
  ⟨fun _ => .ok "" [],
   fun _ => "Error: executing tool: TypeError: unsupported operand", true⟩

def c6wPost : AgentState := tool_calling_node cfgC6 stC6

/-! ## C5: `MCPTool._arun` and `MultiMCPManager.call_tool`
(`langraph_multi_mcp_tools.py:79-97`, `mcp_multi_client.py:422-449`)

The MCP servers and their clients are external; a client is modelled by the
content string it returns for a call (`MCPClientWrapper.call_tool` returns
either `None` — connection failure or internal error, lines 204-205 and
271-274 — or a dict that always carries a `"content"` key, lines 226-237).
-/

structure MCPToolInfo where
  name : String
  description : String
deriving Repr, DecidableEq

/-- The connected servers in iteration order, with their (cached) tool lists,
plus the behaviour of each server's `client.call_tool`. -/
structure ServerEnv where
  servers : List (String × List MCPToolInfo)
  clientCall : String → String → Option String

/-- Method `MultiMCPManager.get_tool_by_name` (lines 422-431): first server, in
iteration order, whose tool list contains the name. -/
def get_tool_by_name (env : ServerEnv) (toolName : String) :
    Option (String × MCPToolInfo) :=
  go env.servers
where
  go : List (String × List MCPToolInfo) → Option (String × MCPToolInfo)
    | [] => none
    | (srv, tools) :: rest =>
        match tools.find? (fun t => t.name == toolName) with
        | some t => some (srv, t)
        | none => go rest

/-- The dict `MultiMCPManager.call_tool` returns on success: the client's
content plus the `server`/`tool` keys added at lines 445-447. -/
structure MCPCallResult where
  content : String
  ctype : String
  server : String
  tool : String
deriving Repr, DecidableEq

/-- Method `MultiMCPManager.call_tool` (lines 433-449): `None` when the tool is not
found in any connected server, otherwise the client result (itself possibly
`None`) with the bookkeeping keys added. -/
def call_tool (env : ServerEnv) (tool_name : String) :
    Option MCPCallResult :=
  match get_tool_by_name env tool_name with
  | none => none
  | some (srv, _) =>
      match env.clientCall srv tool_name with
      | none => none
      | some content => some ⟨content, "text", srv, tool_name⟩

/-- Result of `json.dumps` of a one-entry error dict as `MCPTool._arun` builds it. -/
def jsonError (m : String) : String := "\x7b\"error\": \"" ++ m ++ "\"\x7d"

/-- The possible outcomes of `await asyncio.wait_for(mcp_manager.call_tool
(...), timeout=30.0)`: normal completion with the manager's optional result,
or an exception (timeout or internal error) with message `msg`. -/
inductive InvokeOutcome where
  | completed (res : Option MCPCallResult) : InvokeOutcome
  | raised (msg : String) : InvokeOutcome

/-- Method `MCPTool._arun` (lines 79-97): returns the result content; when the
manager produced no result, a "No result from" error payload; when the
awaited call raised (timeout or internal exception), an "Error executing"
payload carrying the exception message.  Total: nothing propagates to the
caller. -/
def arun (toolName : String) (o : InvokeOutcome) : String :=
  match o with
  | .raised m => jsonError ("Error executing " ++ toolName ++ ": " ++ m)
  | .completed none => jsonError ("No result from " ++ toolName)
  | .completed (some r) => r.content

def envC5 : ServerEnv :=
  ⟨[("database", [⟨"execute_sql", "Run a SQL statement"⟩])],
   fun _ _ => some "rows"⟩

def c5wName : String := "missing_tool"

/-! ## `_format_response` (`langgraph_agent.py:802-929`) and
`process_query` (lines 696-800)

`json.loads` over the opaque tool-result content, and the two external
UI-resource generators, are modelled by a `FormatEnv` oracle whose
classification mirrors exactly the branch structure of the scan at lines
855-884: parse failure (`JSONDecodeError`/`KeyError`), a parsed list
(taken when non-empty), a dict carrying `type == "ui_resource"` and a truthy
`ui_resource` value, or anything else.
-/

inductive ContentParse where
  | failed : ContentParse
  | jlist (nonempty : Bool) : ContentParse
  | dictUi (ui : String) : ContentParse
  | other : ContentParse

structure FormatEnv where
  parse : String → ContentParse
  chartGenOk : Bool
  tableGenOk : Bool

/-- The scan over `tool_results` (lines 855-884): first entry that yields a
non-empty list (rendered as a table UI resource) or a dict with a truthy
`ui_resource`; everything else is skipped. -/
def scanToolResults (env : FormatEnv) : List ToolResultEntry → Option String
  | [] => none
  | e :: rest =>
      match env.parse e.content with
      | .jlist true => some "table_ui"
      | .dictUi u => some u
      | _ => scanToolResults env rest

/-- The final-answer filter of lines 809-813: the last `AIMessage` with
non-empty content that does not start with `"User Query:"` and carries no
tool calls. -/
def isFinalAnswerMsg : Message → Bool
  | .ai c tcs =>
      !(c == "") && !("User Query:".toList.isPrefixOf c.toList) && tcs.isEmpty
  | _ => false

def selectAiResponse (msgs : List Message) : String :=
  match msgs.reverse.find? isFinalAnswerMsg with
  | some (.ai c _) => c
  | _ => "No response generated."

/-- Predicate for `\s` of Python's `re` on the ASCII range (all the fenced-block markers
and the texts compared against are ASCII). -/
def isSpaceChar (c : Char) : Bool :=
  c = ' ' || c = '\t' || c = '\n' || c = '\r' || c = '\x0b' || c = '\x0c'

/-- Pattern `\s*\n` anchored at the head of the character list. -/
def wsThenNewline : List Char → Bool
  | [] => false
  | ch :: rest =>
      if ch = '\n' then true
      else if isSpaceChar ch then wsThenNewline rest
      else false

/-- Search `re.search` of `marker ++ \s*\n` over the character list. -/
def hasPatternFrom (marker : List Char) : List Char → Bool
  | [] => false
  | ch :: rest =>
      (marker.isPrefixOf (ch :: rest)
        && wsThenNewline ((ch :: rest).drop marker.length))
      || hasPatternFrom marker rest

/-- The fenced-block language markers of `_contains_code_blocks`
(lines 934-945). -/
def code_block_markers : List String :=
  ["```python", "```javascript", "```js", "```java", "```cpp", "```c",
   "```go", "```rust", "```r", "```julia"]

/-- Method `_contains_code_blocks` (lines 931-952): does the text contain, case
insensitively, one of the fenced-block markers followed by optional
whitespace and a newline. -/
def contains_code_blocks (text : String) : Bool :=
  code_block_markers.any
    (fun mk => hasPatternFrom mk.toList (pyLower text).toList)

/-- The post-hoc code-block policy check of lines 817-825: when the selected
answer text contains a fenced code block, the goal-achieved flag is cleared
and the step tag set to `"code_execution_required"` — unconditionally, with
no check of whether a code-execution tool ran this turn. -/
def frPolicy (st0 : AgentState) : AgentState :=
  if contains_code_blocks (selectAiResponse st0.messages) then
    { st0 with goal_achieved := false,
               current_step := "code_execution_required" }
  else st0

/-- The output record (`response_data`, lines 837-846); `reasoningErr` is the
raw list the top-level error paths of `process_query` put under `reasoning`,
`reasoningJoined` the `" → "`-joined string of the normal path.  A `none`
optional field models an absent key. -/
structure ResponseRecord where
  rtype : String
  response : String
  reasoningJoined : Option String := none
  reasoningErr : Option (List String) := none
  sql_query : Option String := none
  data : Option (List (List (String × String))) := none
  visualization : Option String := none
  uiResource : Option String := none
  goal_achieved : Option Bool := none
  current_step : Option String := none
deriving Repr, DecidableEq

/-- The record fields of lines 837-846 (before the UI-resource branches).
`state.get("current_step", "completed")` reads `""` only for the absent key,
which our `AgentState` encodes as `""`. -/
def frBase (st : AgentState) (aiResponse : String) : ResponseRecord :=
  { rtype := "text",
    response := aiResponse,
    reasoningJoined := some (String.intercalate " → " st.reasoning),
    sql_query := st.sql_query,
    data := st.query_results,
    visualization := st.visualization_config,
    goal_achieved := some st.goal_achieved,
    current_step :=
      some (if st.current_step = "" then "completed" else st.current_step) }

/-- The UI-resource branch cascade of lines 849-926: a UI resource found in
the tool results wins; otherwise a visualization config (generator success
giving `ui_resource`, generator failure `visualization`); otherwise
non-empty query results (generator failure giving `data`); otherwise the
plain text record. -/
def frFinish (env : FormatEnv) (st : AgentState) (aiResponse : String) :
    ResponseRecord :=
  match scanToolResults env st.tool_results with
  | some u =>
      { frBase st aiResponse with
          rtype := "ui_resource",
          uiResource := some u }
  | none =>
      match st.visualization_config with
      | some _ =>
          if env.chartGenOk then
            { frBase st aiResponse with
                rtype := "ui_resource",
                uiResource := some "chart_ui" }
          else { frBase st aiResponse with rtype := "visualization" }
      | none =>
          match st.query_results with
          | some rows =>
              if rows.length > 0 then
                (if env.tableGenOk then
                  { frBase st aiResponse with
                      rtype := "ui_resource",
                      uiResource := some "table_ui" }
                else { frBase st aiResponse with rtype := "data" })
              else frBase st aiResponse
          | none => frBase st aiResponse

/-- Method `_format_response` (lines 802-929). -/
def format_response (env : FormatEnv) (st0 : AgentState) : ResponseRecord :=
  frFinish env (frPolicy st0) (selectAiResponse st0.messages)

/-- The graph invocation of `process_query` (line 771) with the
`recursion_limit` of 10 set at line 714: the run either finishes at `END`
within the limit, crashes because a node raised, or exhausts the limit
(`GraphRecursionError`; the exact exception text is irrelevant to every
claim). -/
def runOutcome (cfg : Config) (prev : List Message) (q : String) :
    Except String AgentState :=
  match runAgent cfg (initState prev q) 10 with
  | .crashed m => .error m
  | .running rs =>
      if rs.node = .done then .ok rs.state else .error "GraphRecursionError"

/-- Method `process_query` (lines 696-800): run the graph and format the final
state; the `except` at lines 792-800 converts any exception into an error
record whose response embeds `str(e)` after a fixed prefix; the no-graph
branch (lines 784-790) returns its fixed error record. -/
def process_query (cfg : Config) (env : FormatEnv) (graphAvailable : Bool)
    (prev : List Message) (q : String) : ResponseRecord :=
  if graphAvailable then
    match runOutcome cfg prev q with
    | .ok final => format_response env final
    | .error m =>
        { rtype := "error",
          response := "I encountered an error processing your query: " ++ m,
          reasoningErr := some ["Error: " ++ m] }
  else
    { rtype := "error",
      response := "LangGraph is not available. Please check the LLM configuration.",
      reasoningErr := some ["No LLM or graph configured"] }

/-- The tool names requested by assistant messages whose call id later got a
`ToolMessage` reply: the tools actually invoked during the turn. -/
def invokedToolNames (msgs : List Message) : List String :=
  msgs.flatMap (fun m =>
    match m with
    | .ai _ tcs =>
        (tcs.filter (fun tc => msgs.any (fun m2 =>
          match m2 with
          | .tool _ tid => tid == tc.id
          | _ => false))).map (fun tc => tc.name)
    | _ => [])

def envTriv : FormatEnv := ⟨fun _ => .failed, true, true⟩

def stC8 : AgentState :=
  { initState [] "show me python code" with
      messages := (initState [] "show me python code").messages ++
        [.ai "executing first" [⟨"execute_python_code", "", "call_px"⟩],
         .tool "executed fine" "call_px",
         .ai "Here it is:\n```python\nprint(1)\n```\n" []],
      tool_results := [⟨0, "executed fine", "", true⟩],
      goal_achieved := true }

def stC8plain : AgentState :=
  { initState [] "top merchants" with
      messages := (initState [] "top merchants").messages ++
        [.ai "The top merchant is Acme." []],
      goal_achieved := true }

def tcC7 : ToolCall := ⟨"execute_database_query", "", "call_c7"⟩

def cfgC7 : Config :=
  ⟨fun n => if n ≤ 1 then .ok "calling the database" [tcC7]
    else .exc "ZeroDivisionError: division by zero",
   fun _ => "Error: TypeError: unsupported", true⟩

/-! ## C9: `clear_session_memory` (`langgraph_agent.py:963-984`)

The dual store: the backup `session_histories` dict owned by the agent, and
the LangGraph checkpointer (`MemorySaver`, an external collaborator) whose
`adelete(config)` call at line 979 is modelled — per the call site's stated
intent, "Remove checkpoint if it exists" — as removing the thread's entry.
`get_history` is the dual read path of `process_query` (lines 718-744):
the backup is authoritative; the checkpoint is consulted only when the
backup has no entry; an unknown session reads as empty. -/

structure SessionMemory where
  session_histories : List (String × List Message)
  checkpoints : List (String × List Message)
deriving Repr, DecidableEq

/-- Method `clear_session_memory` (lines 963-984): delete the backup entry if
present, best-effort delete the checkpoint entry (any exception there is
caught and logged), return `True`. -/
def clear_session_memory (session_id : String) (m : SessionMemory) :
    SessionMemory × Bool :=
  ({ session_histories :=
       m.session_histories.filter (fun p => !(p.1 == session_id)),
     checkpoints := m.checkpoints.filter (fun p => !(p.1 == session_id)) },
   true)

/-- The dual-path history read of `process_query` (lines 718-744). -/
def get_history (m : SessionMemory) (session_id : String) : List Message :=
  match m.session_histories.find? (fun p => p.1 == session_id) with
  | some p => p.2
  | none =>
      match m.checkpoints.find? (fun p => p.1 == session_id) with
      | some p => p.2
      | none => []

def toolCallW : ToolCall := ⟨"execute_database_query", "", "call_1"⟩

def cfgW : Config :=
  ⟨fun _ => .ok "Using a tool." [toolCallW], fun _ => "rows", true⟩

/-- The run position of the witness trace after `n` super-steps. -/
def rsAtW (n : Nat) : RunState :=
  match runAgent cfgW (initState [] "hi") n with
  | .running rs => rs
  | .crashed _ => ⟨.done, initState [] "hi", 0⟩

/-! ## C2: the consecutive-failure circuit breaker -/

/-- The last two accumulator entries both carry `success = false`. -/
def lastTwoFailed (rs : List ToolResultEntry) : Bool :=
  match rs.reverse with
  | a :: b :: _ => !a.success && !b.success
  | _ => false

def stC2w : AgentState :=
  { initState [] "what are the top merchants" with
      tool_results :=
        [⟨0, "Error: TypeError boom", "", false⟩,
         ⟨0, "Error: TypeError boom", "", false⟩] }

def cfgC2w : Config :=
  ⟨fun _ => .ok "There is a database connectivity issue; please contact support." [],
   fun _ => "x", true⟩

/-- The state produced by the guarded reasoning step of the C2 witness. -/
def c2wPost : AgentState :=
  match reasoning_node cfgC2w 0 stC2w with
  | .ok (s, _) => s
  | .error _ => stC2w

theorem strContains_of_append (a pat b : String) :
    strContains (a ++ pat ++ b) pat = true := by
  simp only [strContains, decide_eq_true_eq]
  refine ⟨a.toList, b.toList, ?_⟩
  have h : (a ++ pat ++ b).toList = a.toList ++ pat.toList ++ b.toList := by
    simp [String.toList, String.data_append]
  simp [h]

theorem ensureList_eq_map (xs : List PyVal) :
    ensureList xs = xs.map ensure_json_serializable := by
  induction xs with
  | nil => rfl
  | cons x xs ih => simp [ensureList, ih]

theorem ensureEntries_eq_map (es : List (String × PyVal)) :
    ensureEntries es = es.map (fun e => (e.1, ensure_json_serializable e.2)) := by
  induction es with
  | nil => rfl
  | cons e es ih => simp [ensureEntries, ih]

theorem ensureEntries_keys (es : List (String × PyVal)) :
    (ensureEntries es).map Prod.fst = es.map Prod.fst := by
  induction es with
  | nil => rfl
  | cons e es ih => simp [ensureEntries, ih]

mutual

theorem ensure_json_idem :
    ∀ v, ensure_json_serializable (ensure_json_serializable v) =
      ensure_json_serializable v
  | .pdecimal _ => rfl
  | .pdict es => by
      simp only [ensure_json_serializable]
      exact congrArg PyVal.pdict (ensureEntries_idem es)
  | .plist xs => by
      simp only [ensure_json_serializable]
      exact congrArg PyVal.plist (ensureList_idem xs)
  | .pdatetime _ => rfl
  | .pnone => rfl
  | .pbool _ => rfl
  | .pint _ => rfl
  | .pstr _ => rfl
  | .pfloat _ => rfl

theorem ensureList_idem :
    ∀ xs, ensureList (ensureList xs) = ensureList xs
  | [] => rfl
  | x :: xs => by
      simp only [ensureList]
      exact congrArg₂ List.cons (ensure_json_idem x) (ensureList_idem xs)

theorem ensureEntries_idem :
    ∀ es, ensureEntries (ensureEntries es) = ensureEntries es
  | [] => rfl
  | e :: es => by
      simp only [ensureEntries]
      refine congrArg₂ List.cons ?_ (ensureEntries_idem es)
      exact congrArg (fun v => (e.1, v)) (ensure_json_idem e.2)

end

/-- C10: `ensure_json_serializable` preserves nested dict/list structure and
keys, replaces every `Decimal` with the corresponding float and every
`isoformat`-carrying object with its ISO string, leaves all other leaves
unchanged, and is idempotent. -/
theorem c10_ensure_json_serializable :
    (∀ r, ensure_json_serializable (.pdecimal r) = .pfloat r)
    ∧ (∀ iso, ensure_json_serializable (.pdatetime iso) = .pstr iso)
    ∧ (ensure_json_serializable .pnone = .pnone)
    ∧ (∀ b, ensure_json_serializable (.pbool b) = .pbool b)
    ∧ (∀ n, ensure_json_serializable (.pint n) = .pint n)
    ∧ (∀ s, ensure_json_serializable (.pstr s) = .pstr s)
    ∧ (∀ r, ensure_json_serializable (.pfloat r) = .pfloat r)
    ∧ (∀ xs, ensure_json_serializable (.plist xs) =
        .plist (xs.map ensure_json_serializable))
    ∧ (∀ es, ensure_json_serializable (.pdict es) =
        .pdict (es.map (fun e => (e.1, ensure_json_serializable e.2))))
    ∧ (∀ es, (ensureEntries es).map Prod.fst = es.map Prod.fst)
    ∧ (∀ v, ensure_json_serializable (ensure_json_serializable v) =
        ensure_json_serializable v) := by
  refine ⟨fun _ => rfl, fun _ => rfl, rfl, fun _ => rfl, fun _ => rfl,
    fun _ => rfl, fun _ => rfl, ?_, ?_, ensureEntries_keys, ensure_json_idem⟩
  · intro xs
    simp [ensure_json_serializable, ensureList_eq_map]
  · intro es
    simp [ensure_json_serializable, ensureEntries_eq_map]

/-! ## Frame lemmas for the node functions -/

theorem rnPreprocess_frame (st : AgentState) (q : String) :
    (rnPreprocess st q).iteration_count = st.iteration_count
    ∧ (rnPreprocess st q).max_iterations = st.max_iterations
    ∧ (rnPreprocess st q).tool_results = st.tool_results
    ∧ (rnPreprocess st q).messages = st.messages := by
  unfold rnPreprocess
  split <;> split <;> simp

theorem rnPreprocess_goal (st : AgentState) (q : String) :
    (rnPreprocess st q).goal_achieved =
      (if hasCodeKeywords q then false else st.goal_achieved) := by
  unfold rnPreprocess
  split <;> split <;> simp_all

theorem rnPre_frame (st : AgentState) :
    (rnPre st).iteration_count = rnIter st
    ∧ (rnPre st).max_iterations = st.max_iterations
    ∧ (rnPre st).tool_results = st.tool_results
    ∧ (rnPre st).messages = st.messages := by
  have h := rnPreprocess_frame { st with iteration_count := rnIter st }
    st.user_query
  unfold rnPre
  simpa using h

theorem mainReasoningPath_frame (cfg : Config) (ctr : Nat) (st : AgentState)
    (ic : Bool) (iter : Nat) (uq : String) :
    (mainReasoningPath cfg ctr st ic iter uq).iteration_count =
      st.iteration_count
    ∧ (mainReasoningPath cfg ctr st ic iter uq).max_iterations =
      st.max_iterations
    ∧ (mainReasoningPath cfg ctr st ic iter uq).tool_results =
      st.tool_results := by
  unfold mainReasoningPath
  cases cfg.llm ctr with
  | exc m => simp
  | ok c tcs =>
      cases hcalls : (if cfg.hasTools then tcs else []).isEmpty <;>
        simp [hcalls]

/-- Lemma: `_reasoning_node` on success: the iteration count is incremented exactly
when the accumulator is non-empty (continuation), and `max_iterations` and
`tool_results` are untouched. -/
theorem reasoning_node_frame (cfg : Config) (ctr : Nat) (st st' : AgentState)
    (c' : Nat) (h : reasoning_node cfg ctr st = .ok (st', c')) :
    st'.iteration_count = rnIter st
    ∧ st'.max_iterations = st.max_iterations
    ∧ st'.tool_results = st.tool_results := by
  obtain ⟨hp1, hp2, hp3, _⟩ := rnPre_frame st
  unfold reasoning_node at h
  by_cases hg : consecutiveFailures (rnPre st).tool_results ≥ 2
  · rw [if_pos hg] at h
    cases hllm : cfg.llm ctr <;> rw [hllm] at h
    · cases h
      simp [hp1, hp2, hp3]
    · cases h
  · rw [if_neg hg] at h
    have mainCase : ∀ ctr2 ctr3, .ok (mainReasoningPath cfg ctr2 (rnPre st)
          (!st.tool_results.isEmpty) (rnIter st) st.user_query, ctr3)
          = (Except.ok (st', c') : Except String (AgentState × Nat)) →
        st'.iteration_count = rnIter st
        ∧ st'.max_iterations = st.max_iterations
        ∧ st'.tool_results = st.tool_results := by
      intro ctr2 ctr3 hm
      obtain ⟨hm1, hm2, hm3⟩ := mainReasoningPath_frame cfg ctr2 (rnPre st)
        (!st.tool_results.isEmpty) (rnIter st) st.user_query
      cases hm
      exact ⟨by rw [hm1, hp1], by rw [hm2, hp2], by rw [hm3, hp3]⟩
    by_cases hc : ((rnIter st == 0) && !hasCodeKeywords st.user_query) = true
    · rw [if_pos hc] at h
      cases hllm : cfg.llm ctr <;> rw [hllm] at h
      · cases h
        simp [hp1, hp2, hp3]
      · exact mainCase (ctr + 1) (ctr + 2) h
    · rw [if_neg hc] at h
      exact mainCase ctr (ctr + 1) h

/-- Lemma: `_tool_calling_node` preserves the iteration counter, the cap and the
goal flag, and appends exactly one accumulator entry when the most recent
assistant message carries tool calls (and none otherwise). -/
theorem tool_calling_node_frame (cfg : Config) (st : AgentState) :
    (tool_calling_node cfg st).iteration_count = st.iteration_count
    ∧ (tool_calling_node cfg st).max_iterations = st.max_iterations
    ∧ (tool_calling_node cfg st).goal_achieved = st.goal_achieved := by
  unfold tool_calling_node
  split <;> simp

theorem tool_calling_node_results (cfg : Config) (st : AgentState)
    (h : lastMessageCalls st.messages ≠ []) :
    ∃ e, (tool_calling_node cfg st).tool_results = st.tool_results ++ [e] := by
  unfold tool_calling_node
  cases hlm : (toolNodeMsgs cfg st.messages).getLast? with
  | none =>
      exfalso
      unfold toolNodeMsgs at hlm
      cases hc : lastMessageCalls st.messages with
      | nil => exact h hc
      | cons a l => rw [hc] at hlm; simp at hlm
  | some lastMsg => exact ⟨_, rfl⟩

theorem should_use_tools_eq_tools (st : AgentState)
    (h : should_use_tools st = "tools") :
    st.goal_achieved = false ∧ lastMessageCalls st.messages ≠ [] := by
  unfold should_use_tools at h
  split at h
  · exact absurd h (by decide)
  · split at h
    · next heq =>
        refine ⟨by simp_all, ?_⟩
        unfold lastMessageCalls
        rw [heq]
        simp
    · exact absurd h (by decide)

theorem should_continue_eq_continue (st : AgentState)
    (h : should_continue_reasoning st = "continue") :
    st.iteration_count < st.max_iterations ∧ st.goal_achieved = false := by
  unfold should_continue_reasoning at h
  split at h
  · exact absurd h (by decide)
  · split at h
    · exact absurd h (by decide)
    · next h1 h2 => exact ⟨by omega, by simp_all⟩

theorem stepRun_preserves_inv (cfg : Config) (rs rs' : RunState)
    (hstep : stepRun cfg (.running rs) = .running rs')
    (hinv : AgentInv rs) : AgentInv rs' := by
  obtain ⟨h1, h2, h3⟩ := hinv
  simp only [stepRun] at hstep
  cases hnode : rs.node with
  | done =>
      rw [hnode] at hstep
      cases hstep
      exact ⟨h1, h2, h3⟩
  | reasoning =>
      rw [hnode] at hstep
      cases hrn : reasoning_node cfg rs.ctr rs.state with
      | error m => rw [hrn] at hstep; cases hstep
      | ok out =>
          obtain ⟨st', c'⟩ := out
          rw [hrn] at hstep
          cases hstep
          obtain ⟨hf1, hf2, hf3⟩ := reasoning_node_frame cfg rs.ctr rs.state st' c' hrn
          constructor
          · show st'.iteration_count ≤ st'.max_iterations
            rw [hf1, hf2]
            by_cases hc : rs.state.tool_results.isEmpty
            · simpa [rnIter, hc] using h1
            · have := h2 hnode (by simpa [List.isEmpty_iff] using hc)
              simp only [rnIter, hc, if_false, Bool.false_eq_true]
              omega
          constructor
          · intro hn
            by_cases hd : should_use_tools st' = "tools" <;> simp [hd] at hn
          · intro hn
            by_cases hd : should_use_tools st' = "tools"
            · show lastMessageCalls st'.messages ≠ []
              exact (should_use_tools_eq_tools st' hd).2
            · simp [hd] at hn
  | toolCalling =>
      rw [hnode] at hstep
      cases hstep
      obtain ⟨hf1, hf2, hf3⟩ := tool_calling_node_frame cfg rs.state
      constructor
      · show (tool_calling_node cfg rs.state).iteration_count ≤
          (tool_calling_node cfg rs.state).max_iterations
        rw [hf1, hf2]; exact h1
      constructor
      · intro hn _
        by_cases hd : should_continue_reasoning (tool_calling_node cfg rs.state)
            = "continue"
        · show (tool_calling_node cfg rs.state).iteration_count <
            (tool_calling_node cfg rs.state).max_iterations
          exact (should_continue_eq_continue _ hd).1
        · simp [hd] at hn
      · intro hn
        by_cases hd : should_continue_reasoning (tool_calling_node cfg rs.state)
            = "continue" <;> simp [hd] at hn

theorem runAgent_inv (cfg : Config) (prev : List Message) (q : String) :
    ∀ n rs, runAgent cfg (initState prev q) n = .running rs → AgentInv rs := by
  intro n
  induction n with
  | zero =>
      intro rs h
      simp only [runAgent] at h
      cases h
      refine ⟨by simp [initState], ?_, by simp⟩
      intro _ h
      simp [initState] at h
  | succ n ih =>
      intro rs h
      simp only [runAgent] at h
      cases hprev : runAgent cfg (initState prev q) n with
      | crashed m =>
          rw [hprev] at h
          simp [stepRun] at h
      | running rs0 =>
          rw [hprev] at h
          exact stepRun_preserves_inv cfg rs0 rs h (ih rs0 hprev)

/-- The cap itself is constant across a run (always the default 3 that
`process_query` leaves in place). -/
theorem runAgent_max_iterations (cfg : Config) (prev : List Message)
    (q : String) :
    ∀ n rs, runAgent cfg (initState prev q) n = .running rs →
      rs.state.max_iterations = 3 := by
  intro n
  induction n with
  | zero =>
      intro rs h
      simp only [runAgent] at h
      cases h
      simp [initState]
  | succ n ih =>
      intro rs h
      simp only [runAgent] at h
      cases hprev : runAgent cfg (initState prev q) n with
      | crashed m => rw [hprev] at h; simp [stepRun] at h
      | running rs0 =>
          rw [hprev] at h
          have h0 := ih rs0 hprev
          simp only [stepRun] at h
          cases hnode : rs0.node with
          | done => rw [hnode] at h; cases h; exact h0
          | reasoning =>
              rw [hnode] at h
              cases hrn : reasoning_node cfg rs0.ctr rs0.state with
              | error m => rw [hrn] at h; cases h
              | ok out =>
                  obtain ⟨st', c'⟩ := out
                  rw [hrn] at h
                  cases h
                  have := (reasoning_node_frame cfg rs0.ctr rs0.state st' c' hrn).2.1
                  show st'.max_iterations = 3
                  omega
          | toolCalling =>
              rw [hnode] at h
              cases h
              have := (tool_calling_node_frame cfg rs0.state).2.1
              show (tool_calling_node cfg rs0.state).max_iterations = 3
              omega

theorem stepRun_mono (cfg : Config) (rs rs' : RunState)
    (hstep : stepRun cfg (.running rs) = .running rs') :
    rs.state.iteration_count ≤ rs'.state.iteration_count := by
  simp only [stepRun] at hstep
  cases hnode : rs.node with
  | done => rw [hnode] at hstep; cases hstep; exact Nat.le_refl _
  | reasoning =>
      rw [hnode] at hstep
      cases hrn : reasoning_node cfg rs.ctr rs.state with
      | error m => rw [hrn] at hstep; cases hstep
      | ok out =>
          obtain ⟨st', c'⟩ := out
          rw [hrn] at hstep
          cases hstep
          have hf := (reasoning_node_frame cfg rs.ctr rs.state st' c' hrn).1
          show rs.state.iteration_count ≤ st'.iteration_count
          rw [hf]
          unfold rnIter
          split <;> omega
  | toolCalling =>
      rw [hnode] at hstep
      cases hstep
      have := (tool_calling_node_frame cfg rs.state).1
      show rs.state.iteration_count ≤ (tool_calling_node cfg rs.state).iteration_count
      omega

/-! ## C3: the goal-achieved flag after a reasoning step -/

theorem rnPre_goal (st : AgentState) :
    (rnPre st).goal_achieved =
      (if hasCodeKeywords st.user_query then false else st.goal_achieved) := by
  unfold rnPre
  rw [rnPreprocess_goal]

/-- Behaviour of the main (non-conversational) reasoning tail when the model
call returns normally. -/
theorem mainReasoningPath_ok (cfg : Config) (ctr : Nat) (st : AgentState)
    (ic : Bool) (iter : Nat) (uq : String) (c : String) (tcs : List ToolCall)
    (hllm : cfg.llm ctr = .ok c tcs) :
    (mainReasoningPath cfg ctr st ic iter uq).messages =
      st.messages ++ [.ai c (if cfg.hasTools then tcs else [])]
    ∧ (mainReasoningPath cfg ctr st ic iter uq).goal_achieved =
      (if (if cfg.hasTools then tcs else []).isEmpty then true
       else st.goal_achieved)
    ∧ (mainReasoningPath cfg ctr st ic iter uq).current_step =
      (if (if cfg.hasTools then tcs else []).isEmpty then "completed"
       else "tool_execution") := by
  unfold mainReasoningPath
  rw [hllm]
  cases hcalls : (if cfg.hasTools then tcs else []).isEmpty <;> simp [hcalls]

/-- C3 (amended): after a reasoning step that completes without an internal
error, the goal flag behaves in two ways.  On the main (non-conversational)
path, entered with the goal flag false, the flag ends true exactly when the
appended response carries no effective tool calls.  On the first-iteration
conversational-shortcut path, the flag is left unchanged — in particular it
stays false even when the shortcut response carries no tool calls, which is
where the original claim fails. -/
theorem c3_goal_achieved_semantics (cfg : Config) (ctr : Nat)
    (st : AgentState) (c : String) (tcs : List ToolCall) :
    (st.goal_achieved = false →
      consecutiveFailures st.tool_results < 2 →
      ((rnIter st == 0) && !hasCodeKeywords st.user_query) = false →
      cfg.llm ctr = .ok c tcs →
      ∃ st', reasoning_node cfg ctr st = .ok (st', ctr + 1)
        ∧ st'.messages = st.messages ++
            [.ai c (if cfg.hasTools then tcs else [])]
        ∧ st'.goal_achieved = (if cfg.hasTools then tcs else []).isEmpty)
    ∧ (st.iteration_count = 0 →
      st.tool_results = [] →
      hasCodeKeywords st.user_query = false →
      cfg.llm ctr = .ok c tcs →
      ∃ st', reasoning_node cfg ctr st = .ok (st', ctr + 1)
        ∧ st'.messages = st.messages ++
            [.ai c (if cfg.hasTools then tcs else [])]
        ∧ st'.goal_achieved = st.goal_achieved) := by
  obtain ⟨hp1, hp2, hp3, hp4⟩ := rnPre_frame st
  constructor
  · intro hgoal hguard hpath hllm
    have hgpre : (rnPre st).goal_achieved = false := by
      rw [rnPre_goal]
      cases hkw : hasCodeKeywords st.user_query <;> simp [hgoal]
    unfold reasoning_node
    rw [if_neg (by rw [hp3]; omega)]
    rw [if_neg (by simp [hpath])]
    obtain ⟨hmsg, hgoal', hstep⟩ := mainReasoningPath_ok cfg ctr (rnPre st)
      (!st.tool_results.isEmpty) (rnIter st) st.user_query c tcs hllm
    refine ⟨_, rfl, ?_, ?_⟩
    · rw [hmsg, hp4]
    · rw [hgoal', hgpre]
      cases hcalls : (if cfg.hasTools then tcs else []).isEmpty <;> simp
  · intro hiter htr hkw hllm
    have hg : ¬ consecutiveFailures (rnPre st).tool_results ≥ 2 := by
      rw [hp3, htr]
      simp [consecutiveFailures, consecutiveFailures.go]
    have hcond : ((rnIter st == 0) && !hasCodeKeywords st.user_query) = true := by
      simp [rnIter, htr, hiter, hkw]
    unfold reasoning_node
    rw [if_neg hg, if_pos hcond, hllm]
    refine ⟨_, rfl, ?_, ?_⟩
    · simp [hp4]
    · show (rnPre st).goal_achieved = st.goal_achieved
      rw [rnPre_goal, hkw]
      simp

/-- C3 counterexample: on the query `"hello"` (no code keywords), the first
reasoning step takes the conversational shortcut; the model response carries
no tool-call requests, the step completes without error — yet the
goal-achieved flag is left false, contradicting the claimed iff. -/
theorem c3_counterexample :
    reasoning_node cfgC3 0 (initState [] "hello") = .ok (c3post, 1)
    ∧ c3post.messages.getLast? = some (.ai "Hello there!" [])
    ∧ c3post.goal_achieved = false
    ∧ ¬(c3post.goal_achieved = true ↔
        ([] : List ToolCall).isEmpty = true) := by
  refine ⟨by rfl, by decide, by decide, ?_⟩
  intro hiff
  have := hiff.mpr (by decide)
  revert this
  decide

theorem c3_witness :
    c3wPost.goal_achieved = true
    ∧ c3wPost.messages = stC3w.messages ++ [.ai "All done." []]
    ∧ c3post.goal_achieved = (initState [] "hello").goal_achieved := by
  obtain ⟨hA, hB⟩ := c3_goal_achieved_semantics cfgC3w 0 stC3w "All done." []
  obtain ⟨st', h1, h2, h3⟩ := hA (by decide) (by decide) (by decide) rfl
  have hpost : c3wPost = st' := by
    unfold c3wPost
    rw [h1]
  obtain ⟨hA2, hB2⟩ := c3_goal_achieved_semantics cfgC3 0 (initState [] "hello")
    "Hello there!" []
  obtain ⟨st2, g1, g2, g3⟩ := hB2 (by decide) (by decide) (by decide) rfl
  have hpost2 : c3post = st2 := by
    unfold c3post
    rw [g1]
  refine ⟨?_, ?_, ?_⟩
  · rw [hpost, h3]
    decide
  · rw [hpost, h2]
    decide
  · rw [hpost2, g3]

/-! ## C4: dispatched requests versus accumulator entries -/

/-- Full characterization of one tool-dispatch step when the most recent
assistant message carries requests `tcs` whose last element is `tcLast`:
one `ToolMessage` per request is appended in order, and the accumulator
gains exactly the single entry built from the last dispatched result. -/
theorem tool_calling_node_spec (cfg : Config) (st : AgentState) (c : String)
    (tcs : List ToolCall) (tcLast : ToolCall)
    (hlast : st.messages.getLast? = some (.ai c tcs))
    (htl : tcs.getLast? = some tcLast) :
    (tool_calling_node cfg st).messages = st.messages ++
        tcs.map (fun tc => Message.tool (cfg.toolExec tc) tc.id)
    ∧ (tool_calling_node cfg st).tool_results = st.tool_results ++
        [{ iteration := st.iteration_count,
           content := cfg.toolExec tcLast,
           timestamp := "",
           success := !containsErrorMarker (cfg.toolExec tcLast) }] := by
  have hcalls : lastMessageCalls st.messages = tcs := by
    unfold lastMessageCalls
    rw [hlast]
  have hmsgs : toolNodeMsgs cfg st.messages =
      tcs.map (fun tc => Message.tool (cfg.toolExec tc) tc.id) := by
    unfold toolNodeMsgs
    rw [hcalls]
  have hgl : (toolNodeMsgs cfg st.messages).getLast? =
      some (Message.tool (cfg.toolExec tcLast) tcLast.id) := by
    rw [hmsgs, List.getLast?_map, htl]
    rfl
  unfold tool_calling_node
  rw [hgl]
  exact ⟨by simp [hmsgs], rfl⟩

/-- C4 (amended): in a tool-dispatch step whose most recent assistant message
carries the (non-empty) requests `tcs`, every request is dispatched exactly
once, sequentially in order, and one `ToolMessage` per request is appended to
the message list before the node returns (hence before the next reasoning
step runs).  The turn accumulator, however, receives exactly ONE
`ToolResult` entry per dispatch step — built from the last dispatched
result, and carrying no call id at all — so the accumulator matches the
dispatched requests one-to-one only when the message carries a single
request. -/
theorem c4_dispatch_semantics (cfg : Config) (st : AgentState) (c : String)
    (tcs : List ToolCall)
    (hlast : st.messages.getLast? = some (.ai c tcs)) (hne : tcs ≠ []) :
    (tool_calling_node cfg st).messages = st.messages ++
        tcs.map (fun tc => Message.tool (cfg.toolExec tc) tc.id)
    ∧ ∃ e, (tool_calling_node cfg st).tool_results = st.tool_results ++ [e]
        ∧ e.iteration = st.iteration_count
        ∧ ∃ tcLast, tcs.getLast? = some tcLast
            ∧ e.content = cfg.toolExec tcLast
            ∧ e.success = !containsErrorMarker (cfg.toolExec tcLast) := by
  cases htl : tcs.getLast? with
  | none =>
      exfalso
      cases tcs with
      | nil => exact hne rfl
      | cons a l => simp at htl
  | some tcLast =>
      obtain ⟨hm, hr⟩ := tool_calling_node_spec cfg st c tcs tcLast hlast htl
      exact ⟨hm, ⟨_, hr, rfl, tcLast, rfl, rfl, rfl⟩⟩

/-- C4 counterexample: an assistant message with two tool-call requests.
Both are dispatched (two `ToolMessage`s appended, ids `call_a`, `call_b`),
but the turn accumulator gains exactly one entry — and that entry carries no
call id — so the set of dispatched request ids (2 of them) cannot equal the
set of appended accumulator entries (1 of them). -/
theorem c4_counterexample :
    (lastMessageCalls stC4.messages).map (fun tc => tc.id)
      = ["call_a", "call_b"]
    ∧ (tool_calling_node cfgC4 stC4).messages = stC4.messages ++
        [.tool "result for call_a" "call_a", .tool "result for call_b" "call_b"]
    ∧ (tool_calling_node cfgC4 stC4).tool_results.length = 1
    ∧ ¬((tool_calling_node cfgC4 stC4).tool_results.length
        = (lastMessageCalls stC4.messages).length) := by
  exact ⟨by decide, by decide, by decide, by decide⟩

theorem c4_witness :
    c4wPost.messages = stC4w.messages ++ [.tool "result for call_a" "call_a"]
    ∧ c4wPost.tool_results.length = 1 := by
  obtain ⟨h1, e, h2, h3, tcLast, h4, h5, h6⟩ :=
    c4_dispatch_semantics cfgC4 stC4w "one call" [tcA] (by decide) (by decide)
  constructor
  · have h1' : c4wPost.messages = stC4w.messages ++
        [tcA].map (fun tc => Message.tool (cfgC4.toolExec tc) tc.id) := h1
    rw [h1']
    decide
  · have h2' : c4wPost.tool_results = stC4w.tool_results ++ [e] := h2
    rw [h2']
    simp [stC4w, initState]

/-- C6: the `ToolResult` recorded by the tool-dispatch step carries
`success = !containsErrorMarker content`: the flag is false exactly when the
content text contains the error marker (both `"Error:"` and `"TypeError"` as
substrings, per line 246), true otherwise, and it is a function of the
otherwise-opaque content string alone. -/
theorem c6_success_from_error_marker (cfg : Config) (st : AgentState)
    (c : String) (tcs : List ToolCall) (tcLast : ToolCall)
    (hlast : st.messages.getLast? = some (.ai c tcs))
    (htl : tcs.getLast? = some tcLast) :
    (tool_calling_node cfg st).tool_results = st.tool_results ++
      [{ iteration := st.iteration_count,
         content := cfg.toolExec tcLast,
         timestamp := "",
         success := derivedSuccess (cfg.toolExec tcLast) }]
    ∧ (∀ e, (tool_calling_node cfg st).tool_results =
        st.tool_results ++ [e] →
        (e.success = false ↔ containsErrorMarker e.content = true)) := by
  have h := (tool_calling_node_spec cfg st c tcs tcLast hlast htl).2
  refine ⟨h, ?_⟩
  intro e he
  rw [h] at he
  have hee : (⟨st.iteration_count, cfg.toolExec tcLast, "",
      !containsErrorMarker (cfg.toolExec tcLast)⟩ : ToolResultEntry) = e := by
    have h2 := List.append_cancel_left he
    simpa using h2
  rw [← hee]
  cases hm : containsErrorMarker (cfg.toolExec tcLast) <;> simp [hm]

theorem c6_witness :
    containsErrorMarker "Error: executing tool: TypeError: unsupported operand"
      = true
    ∧ c6wPost.tool_results = stC6.tool_results ++
        [⟨0, "Error: executing tool: TypeError: unsupported operand", "",
          false⟩] := by
  obtain ⟨h1, h2⟩ := c6_success_from_error_marker cfgC6 stC6 "running query"
    [tcC6] tcC6 (by decide) (by decide)
  refine ⟨by decide, ?_⟩
  have h1' : c6wPost.tool_results = stC6.tool_results ++
      [({ iteration := stC6.iteration_count,
          content := cfgC6.toolExec tcC6,
          timestamp := "",
          success := derivedSuccess (cfgC6.toolExec tcC6) }
        : ToolResultEntry)] := h1
  rw [h1']
  decide

/-- C5 (amended): invoking a tool never raises to the caller — `arun` is
total over every outcome of the underlying call.  A name registered in no
server makes the manager return `None` and the caller receives the payload
`jsonError ("No result from " ++ name)`, which names the tool but does not
literally say "tool not found"; a timeout or internal exception yields
`jsonError ("Error executing " ++ name ++ ": " ++ msg)`, which contains the
exception message; a normal result passes its content through.  The original
claim's "success=false" does not hold: the loop derives success as
`!containsErrorMarker content`, which marks these error payloads successful
unless the text happens to contain both `"Error:"` and `"TypeError"` (see the
counterexample). -/
theorem c5_invoke_error_payloads (env : ServerEnv) (name m : String)
    (r : MCPCallResult) :
    (get_tool_by_name env name = none →
      call_tool env name = none
      ∧ arun name (.completed (call_tool env name))
          = jsonError ("No result from " ++ name))
    ∧ arun name (.raised m)
        = jsonError ("Error executing " ++ name ++ ": " ++ m)
    ∧ strContains (arun name (.raised m)) m = true
    ∧ arun name (.completed (some r)) = r.content := by
  refine ⟨?_, rfl, ?_, rfl⟩
  · intro h
    have hc : call_tool env name = none := by
      unfold call_tool
      rw [h]
    exact ⟨hc, by rw [hc]; rfl⟩
  · have he : arun name (.raised m) =
        ("\x7b\"error\": \"" ++ ("Error executing " ++ name ++ ": "))
          ++ m ++ "\"\x7d" := by
      unfold arun jsonError
      simp [String.append_assoc]
    rw [he]
    exact strContains_of_append _ m _

/-- C5 counterexample: invoking the unregistered name `missing_tool` returns
the error payload, but the success flag the loop derives from that payload is
`true`, not `false` as the claim states — the payload contains neither
`"Error:"` nor `"TypeError"`.  The same holds for a timeout/exception payload
whose message carries no marker. -/
theorem c5_counterexample :
    get_tool_by_name envC5 "missing_tool" = none
    ∧ arun "missing_tool" (.completed (call_tool envC5 "missing_tool"))
        = jsonError "No result from missing_tool"
    ∧ derivedSuccess (jsonError "No result from missing_tool") = true
    ∧ ¬(derivedSuccess (jsonError "No result from missing_tool") = false)
    ∧ derivedSuccess (arun "execute_sql" (.raised "division by zero"))
        = true := by
  exact ⟨by decide, by decide, by decide, by decide, by decide⟩

theorem c5_witness :
    get_tool_by_name envC5 c5wName = none
    ∧ call_tool envC5 c5wName = none
    ∧ arun c5wName (.completed (call_tool envC5 c5wName))
        = jsonError ("No result from " ++ c5wName)
    ∧ strContains (arun c5wName (.raised "division by zero"))
        "division by zero" = true := by
  obtain ⟨h1, h2, h3, h4⟩ := c5_invoke_error_payloads envC5 c5wName
    "division by zero" ⟨"rows", "text", "database", "execute_sql"⟩
  obtain ⟨ha, hb⟩ := h1 (by decide)
  exact ⟨by decide, ha, hb, h3⟩

/-! ## C8: the code-block policy check of the Response Formatter -/

theorem frFinish_goal (env : FormatEnv) (st : AgentState) (a : String) :
    (frFinish env st a).goal_achieved = some st.goal_achieved := by
  unfold frFinish
  repeat' split
  all_goals rfl

/-- C8 (amended): the Response Formatter clears the goal-achieved flag in
the returned record whenever the selected answer text contains a fenced
code block for one of the policy languages — unconditionally, with no check
of whether a matching code-execution tool was invoked during the turn (the
second half of the original claim fails: the flag is cleared even when the
tool WAS invoked, see the counterexample).  Without such a block the flag is
passed through unchanged. -/
theorem c8_code_block_policy (env : FormatEnv) (st0 : AgentState) :
    (contains_code_blocks (selectAiResponse st0.messages) = true →
      (format_response env st0).goal_achieved = some false)
    ∧ (contains_code_blocks (selectAiResponse st0.messages) = false →
      (format_response env st0).goal_achieved = some st0.goal_achieved) := by
  constructor
  · intro h
    unfold format_response
    rw [frFinish_goal]
    unfold frPolicy
    rw [if_pos h]
  · intro h
    unfold format_response
    rw [frFinish_goal]
    unfold frPolicy
    rw [if_neg (by simp [h])]

/-- C8 counterexample: the matching code-execution tool
(`execute_python_code`) WAS invoked this turn (request and reply are in the
message list, a successful `ToolResult` is in the accumulator), the final
answer contains a fenced python block, the loop had set goal-achieved — and
the formatter still clears the flag in the returned record, contradicting
the claim's "never clears goal-achieved when the matching code-execution
tool was invoked". -/
theorem c8_counterexample :
    invokedToolNames stC8.messages = ["execute_python_code"]
    ∧ contains_code_blocks (selectAiResponse stC8.messages) = true
    ∧ stC8.goal_achieved = true
    ∧ (format_response envTriv stC8).goal_achieved = some false := by
  exact ⟨by decide, by decide, by decide, by decide⟩

theorem c8_witness :
    (format_response envTriv stC8).goal_achieved = some false
    ∧ (format_response envTriv stC8plain).goal_achieved = some true := by
  obtain ⟨hA, _⟩ := c8_code_block_policy envTriv stC8
  obtain ⟨_, hB⟩ := c8_code_block_policy envTriv stC8plain
  refine ⟨hA (by decide), ?_⟩
  rw [hB (by decide)]
  decide

/-! ## C7: `process_query` never raises; its error records -/

/-- C7 (amended): `process_query` is total — every exception path inside the
turn converts into a returned record.  A crashed run yields
`type = "error"` with response equal to the fixed natural-language prefix
followed by the raw exception message — the raw exception text therefore
appears verbatim in the user-visible response, contrary to the original
claim's "never raw exception text".  The no-graph path returns its fixed
`type = "error"` record, and a completed run returns the formatted final
state. -/
theorem c7_process_query_error_paths (cfg : Config) (env : FormatEnv)
    (prev : List Message) (q : String) (m : String) :
    (runOutcome cfg prev q = .error m →
      (process_query cfg env true prev q).rtype = "error"
      ∧ (process_query cfg env true prev q).response
          = "I encountered an error processing your query: " ++ m
      ∧ strContains (process_query cfg env true prev q).response m = true)
    ∧ ((process_query cfg env false prev q).rtype = "error"
      ∧ (process_query cfg env false prev q).response
          = "LangGraph is not available. Please check the LLM configuration.")
    ∧ (∀ final, runOutcome cfg prev q = .ok final →
        process_query cfg env true prev q = format_response env final) := by
  refine ⟨?_, ⟨rfl, rfl⟩, ?_⟩
  · intro h
    unfold process_query
    rw [if_pos rfl, h]
    refine ⟨rfl, rfl, ?_⟩
    have hap := strContains_of_append
      "I encountered an error processing your query: " m ""
    rwa [String.append_empty] at hap
  · intro final h
    unfold process_query
    rw [if_pos rfl, h]

/-- C7 counterexample: a run in which the consecutive-failure guard's model
call raises propagates the exception to `process_query`'s top-level
`except`, and the returned record — while of `type = "error"` — carries the
raw exception text verbatim inside its response, refuting "never raw
exception text". -/
theorem c7_counterexample :
    runOutcome cfgC7 [] "hello"
      = .error "ZeroDivisionError: division by zero"
    ∧ (process_query cfgC7 envTriv true [] "hello").rtype = "error"
    ∧ (process_query cfgC7 envTriv true [] "hello").response
        = "I encountered an error processing your query: ZeroDivisionError: division by zero"
    ∧ strContains (process_query cfgC7 envTriv true [] "hello").response
        "ZeroDivisionError: division by zero" = true := by
  exact ⟨by rfl, by decide, by decide, by decide⟩

theorem c7_witness :
    (process_query cfgC7 envTriv true [] "hello").rtype = "error"
    ∧ strContains (process_query cfgC7 envTriv true [] "hello").response
        "ZeroDivisionError: division by zero" = true
    ∧ (process_query cfgC7 envTriv false [] "hello").rtype = "error" := by
  obtain ⟨hA, hB, hC⟩ := c7_process_query_error_paths cfgC7 envTriv [] "hello"
    "ZeroDivisionError: division by zero"
  obtain ⟨h1, h2, h3⟩ := hA (by rfl)
  exact ⟨h1, h3, hB.1⟩

theorem find?_filter_ne (l : List (String × List Message)) (sid : String) :
    (l.filter (fun p => !(p.1 == sid))).find? (fun p => p.1 == sid)
      = none := by
  rw [List.find?_eq_none]
  intro x hx
  have hmem := List.of_mem_filter hx
  simp at hmem
  simp [hmem]

/-- C9: clearing a session is idempotent — the first clear empties the
stored history for that session id (both stores), a second consecutive clear
is a no-op on the state and also returns `True` without raising, and the
history read after either call is empty. -/
theorem c9_clear_idempotent (m : SessionMemory) (sid : String) :
    (clear_session_memory sid m).2 = true
    ∧ (clear_session_memory sid (clear_session_memory sid m).1).2 = true
    ∧ (clear_session_memory sid (clear_session_memory sid m).1).1
        = (clear_session_memory sid m).1
    ∧ get_history (clear_session_memory sid m).1 sid = []
    ∧ get_history (clear_session_memory sid (clear_session_memory sid m).1).1
        sid = [] := by
  have hfilter : ∀ (l : List (String × List Message)),
      ((l.filter (fun p => !(p.1 == sid))).filter (fun p => !(p.1 == sid)))
        = l.filter (fun p => !(p.1 == sid)) := by
    intro l
    induction l with
    | nil => rfl
    | cons x xs ih =>
        by_cases hx : (!(x.1 == sid)) = true
        · simp [List.filter, hx, ih]
        · simp [List.filter, hx, ih]
  have hstate : (clear_session_memory sid (clear_session_memory sid m).1).1
      = (clear_session_memory sid m).1 := by
    unfold clear_session_memory
    simp [hfilter]
  have hget : get_history (clear_session_memory sid m).1 sid = [] := by
    unfold get_history clear_session_memory
    rw [find?_filter_ne, find?_filter_ne]
  refine ⟨rfl, rfl, hstate, hget, ?_⟩
  rw [hstate]
  exact hget

/-! ## C1: iteration-count invariants -/

theorem traversal_increments (cfg : Config) (rs rs' rs'' : RunState)
    (hcalls : lastMessageCalls rs.state.messages ≠ [])
    (hnode : rs.node = .toolCalling)
    (h1 : stepRun cfg (.running rs) = .running rs')
    (hnode' : rs'.node = .reasoning)
    (h2 : stepRun cfg (.running rs') = .running rs'') :
    rs''.state.iteration_count = rs.state.iteration_count + 1 := by
  simp only [stepRun] at h1
  rw [hnode] at h1
  cases h1
  obtain ⟨e, he⟩ := tool_calling_node_results cfg rs.state hcalls
  have hiter : (tool_calling_node cfg rs.state).iteration_count
      = rs.state.iteration_count := (tool_calling_node_frame cfg rs.state).1
  simp only at hnode'
  by_cases hd : should_continue_reasoning (tool_calling_node cfg rs.state)
      = "continue"
  · rw [if_pos hd] at h2
    simp only [stepRun] at h2
    cases hrn : reasoning_node cfg rs.ctr (tool_calling_node cfg rs.state) with
    | error m => rw [hrn] at h2; cases h2
    | ok out =>
        obtain ⟨st'', c''⟩ := out
        rw [hrn] at h2
        cases h2
        have hf := (reasoning_node_frame cfg rs.ctr
          (tool_calling_node cfg rs.state) st'' c'' hrn).1
        show st''.iteration_count = rs.state.iteration_count + 1
        rw [hf]
        unfold rnIter
        rw [he]
        simp [hiter]
  · rw [if_neg hd] at hnode'
    cases hnode'

/-- C1: within a single turn, the iteration count starts at 0, the cap is
the configured default 3, the count never exceeds the cap at any observation
point of the run, it is monotonically non-decreasing across every super-step,
and each traversal from the tool-dispatch node back to the reasoning node
increments it by exactly one. -/
theorem c1_iteration_count_invariant (cfg : Config) (prev : List Message)
    (q : String) :
    (initState prev q).iteration_count = 0
    ∧ (∀ n rs, runAgent cfg (initState prev q) n = .running rs →
        rs.state.max_iterations = 3
        ∧ rs.state.iteration_count ≤ rs.state.max_iterations)
    ∧ (∀ n rs rs', runAgent cfg (initState prev q) n = .running rs →
        runAgent cfg (initState prev q) (n + 1) = .running rs' →
        rs.state.iteration_count ≤ rs'.state.iteration_count)
    ∧ (∀ n rs rs' rs'', runAgent cfg (initState prev q) n = .running rs →
        rs.node = .toolCalling →
        runAgent cfg (initState prev q) (n + 1) = .running rs' →
        rs'.node = .reasoning →
        runAgent cfg (initState prev q) (n + 2) = .running rs'' →
        rs''.state.iteration_count = rs.state.iteration_count + 1) := by
  refine ⟨rfl, ?_, ?_, ?_⟩
  · intro n rs h
    exact ⟨runAgent_max_iterations cfg prev q n rs h,
      (runAgent_inv cfg prev q n rs h).1⟩
  · intro n rs rs' h h'
    have e : runAgent cfg (initState prev q) (n + 1)
        = stepRun cfg (runAgent cfg (initState prev q) n) := rfl
    rw [e, h] at h'
    exact stepRun_mono cfg rs rs' h'
  · intro n rs rs' rs'' h hnode h' hnode' h''
    have e1 : runAgent cfg (initState prev q) (n + 1)
        = stepRun cfg (runAgent cfg (initState prev q) n) := rfl
    have e2 : runAgent cfg (initState prev q) (n + 2)
        = stepRun cfg (runAgent cfg (initState prev q) (n + 1)) := rfl
    rw [e1, h] at h'
    rw [e2, e1, h] at h''
    rw [h'] at h''
    have hcalls := (runAgent_inv cfg prev q n rs h).2.2 hnode
    exact traversal_increments cfg rs rs' rs'' hcalls hnode h' hnode' h''

theorem c1_witness :
    runAgent cfgW (initState [] "hi") 1 = .running (rsAtW 1)
    ∧ (rsAtW 1).node = .toolCalling
    ∧ runAgent cfgW (initState [] "hi") 2 = .running (rsAtW 2)
    ∧ (rsAtW 2).node = .reasoning
    ∧ runAgent cfgW (initState [] "hi") 3 = .running (rsAtW 3)
    ∧ (rsAtW 3).state.iteration_count = (rsAtW 1).state.iteration_count + 1 :=
  ⟨by decide, by decide, by decide, by decide, by decide,
    (c1_iteration_count_invariant cfgW [] "hi").2.2.2 1 (rsAtW 1) (rsAtW 2)
      (rsAtW 3) (by decide) (by decide) (by decide) (by decide) (by decide)⟩

theorem lastTwoFailed_consecutive (rs : List ToolResultEntry)
    (h : lastTwoFailed rs = true) : consecutiveFailures rs ≥ 2 := by
  unfold lastTwoFailed at h
  unfold consecutiveFailures
  cases hr : rs.reverse with
  | nil => rw [hr] at h; cases h
  | cons a t =>
      cases t with
      | nil => rw [hr] at h; cases h
      | cons b t2 =>
          rw [hr] at h
          simp only [Bool.and_eq_true, Bool.not_eq_true'] at h
          obtain ⟨ha, hb⟩ := h
          simp only [consecutiveFailures.go, ha, hb, if_false,
            Bool.false_eq_true]
          omega

/-- C2: whenever the two most recently appended `ToolResult`s of a turn both
have `success = false`, the next reasoning step that runs forces termination
regardless of the iteration cap: it sets the goal-achieved flag, appends the
synthesized explanatory model message, routes straight to `END`, and the run
stays at `DONE` thereafter without dispatching any further tool. -/
theorem c2_consecutive_failure_guard (cfg : Config) (ctr : Nat)
    (st : AgentState) (c : String) (tcs : List ToolCall)
    (hfail : lastTwoFailed st.tool_results = true)
    (hllm : cfg.llm ctr = .ok c tcs) :
    ∃ st', reasoning_node cfg ctr st = .ok (st', ctr + 1)
      ∧ st'.goal_achieved = true
      ∧ st'.messages = st.messages ++ [.ai c []]
      ∧ should_use_tools st' = "end"
      ∧ stepRun cfg (.running ⟨.reasoning, st, ctr⟩)
          = .running ⟨.done, st', ctr + 1⟩
      ∧ ∀ m, (stepRun cfg)^[m] (.running ⟨Node.done, st', ctr + 1⟩)
          = .running ⟨Node.done, st', ctr + 1⟩ := by
  obtain ⟨hp1, hp2, hp3, hp4⟩ := rnPre_frame st
  have hg : consecutiveFailures (rnPre st).tool_results ≥ 2 := by
    rw [hp3]
    exact lastTwoFailed_consecutive _ hfail
  have hrn : reasoning_node cfg ctr st = .ok ({ rnPre st with
      goal_achieved := true,
      messages := (rnPre st).messages ++ [.ai c []],
      reasoning := (rnPre st).reasoning ++
        ["Stopped due to repeated tool failures"] }, ctr + 1) := by
    unfold reasoning_node
    rw [if_pos hg, hllm]
  refine ⟨_, hrn, rfl, ?_, ?_, ?_, ?_⟩
  · simp [hp4]
  · unfold should_use_tools
    simp
  · simp only [stepRun]
    rw [hrn]
    simp [should_use_tools]
  · intro m
    induction m with
    | zero => rfl
    | succ m ih =>
        rw [Function.iterate_succ_apply]
        exact ih

theorem c2_witness :
    lastTwoFailed stC2w.tool_results = true
    ∧ c2wPost.goal_achieved = true
    ∧ c2wPost.messages = stC2w.messages ++
        [.ai "There is a database connectivity issue; please contact support." []]
    ∧ should_use_tools c2wPost = "end" := by
  obtain ⟨st', h1, h2, h3, h4, h5, h6⟩ :=
    c2_consecutive_failure_guard cfgC2w 0 stC2w
      "There is a database connectivity issue; please contact support." []
      (by decide) rfl
  have hpost : c2wPost = st' := by
    unfold c2wPost
    rw [h1]
  exact ⟨by decide, hpost ▸ h2, hpost ▸ h3, hpost ▸ h4⟩

end RopsAnalytics
